import Mathlib

namespace ETrack

/-! ## Data model -/

/-- A record of the `users` collection (`src/lib/db.ts`, sample at line 185,
created at line 342). -/
structure User where
  id : String
  name : String
  email : String
  password : String
  created_at : String
deriving DecidableEq, Repr

/-- A record of the `expenses` collection. -/
structure Expense where
  id : String
  user_id : String
  description : String
  amount : ℚ
  date : String
  category : String
  type : String
deriving DecidableEq, Repr

/-- A record of the `budgets` collection. -/
structure Budget where
  id : String
  user_id : String
  category : String
  amount : ℚ
deriving DecidableEq, Repr

/-- The three object stores of `ExpenseTrackerDB`, each in `getAll` order. -/
structure DB where
  users : List User
  expenses : List Expense
  budgets : List Budget
deriving DecidableEq, Repr

/-- The empty store (fresh install, before seeding). -/
def emptyDB : DB := ⟨[], [], []⟩

/-- Outcome of a domain operation: the source returns either
`{ success: true, ... }` or `{ success: false, message }`. -/
inductive OpResult (α : Type) where
  | success (value : α)
  | failure (message : String)
deriving DecidableEq, Repr

/-- The three store names accepted by the driver primitives. -/
inductive StoreName where
  | users
  | expenses
  | budgets
deriving DecidableEq, Repr

/-! ## Local store driver -/

/-- Driver add (`src/lib/db.ts` lines 80-94): IndexedDB `store.add` rejects
when the key is already present, otherwise appends the record. -/
def storeAdd {α : Type} (key : α → String) (l : List α) (a : α) :
    Except String (List α) :=
  if l.any (fun x => key x == key a) then Except.error "ConstraintError"
  else Except.ok (l ++ [a])

/-- Driver put (lines 97-111): upsert by key. -/
def storePut {α : Type} (key : α → String) (l : List α) (a : α) : List α :=
  if l.any (fun x => key x == key a) then
    l.map (fun x => if key x == key a then a else x)
  else l ++ [a]

/-- Driver get (lines 114-128): the record with the given key, or `null`. -/
def storeGet {α : Type} (key : α → String) (l : List α) (id : String) :
    Option α :=
  l.find? (fun x => key x == id)

/-- Effect of driver `delete` (lines 131-145) on one collection:
`IDBObjectStore.delete` removes the records with the given key and succeeds
whether or not any was present. -/
def storeErase {α : Type} (key : α → String) (l : List α) (id : String) :
    List α :=
  l.filter (fun x => !(key x == id))

/-- Driver delete applied to the named collection of the whole store. -/
def applyDelete (db : DB) (s : StoreName) (id : String) : DB :=
  match s with
  | StoreName.users => { db with users := storeErase User.id db.users id }
  | StoreName.expenses => { db with expenses := storeErase Expense.id db.expenses id }
  | StoreName.budgets => { db with budgets := storeErase Budget.id db.budgets id }

/-- Driver delete (lines 131-145) including the not-initialized rejection. -/
def dbDelete (inst : Option DB) (s : StoreName) (id : String) :
    Except String DB :=
  match inst with
  | none => Except.error "Database not initialized"
  | some db => Except.ok (applyDelete db s id)

/-! ## Domain operations (`useDatabase`, lines 293-644) -/

/-- Operation `getUserByCredentials` (lines 316-325): first user matching both email
and password exactly; `null` when the instance is unavailable, on error, or
when no user matches. -/
def getUserByCredentials (inst : Option DB) (email password : String) :
    Option User :=
  match inst with
  | none => none
  | some db =>
      db.users.find? (fun u => u.email == email && u.password == password)

/-- Operation `createUser` (lines 328-357). `t` is the `Date.now()` reading used for
the generated id, `nowIso` the `new Date().toISOString()` reading stamped
into `created_at`. Returns the outcome together with the store afterwards. -/
def createUser (inst : Option DB) (name email password : String) (t : Nat)
    (nowIso : String) : OpResult User × Option DB :=
  match inst with
  | none => (OpResult.failure "Database not initialized", none)
  | some db =>
      if db.users.any (fun u => u.email == email) then
        (OpResult.failure "Email already in use", some db)
      else
        let user : User :=
          { id := "user_" ++ toString t, name := name, email := email,
            password := password, created_at := nowIso }
        match storeAdd User.id db.users user with
        | Except.error _ => (OpResult.failure "Failed to create user", some db)
        | Except.ok users => (OpResult.success user, some { db with users := users })

/-- The sort relation of `getExpenses` (line 396): the comparator
`new Date(b.date).getTime() - new Date(a.date).getTime()` orders descending
by date; `dateDescLE a b` holds when `a` may come before `b`. -/
def dateDescLE (a b : Expense) : Prop := b.date ≤ a.date

instance : DecidableRel dateDescLE := fun a b =>
  decidable_of_iff (b.date.toList ≤ a.date.toList)
    String.le_iff_toList_le.symm

instance : IsTotal Expense dateDescLE := ⟨fun a b => le_total b.date a.date⟩

instance : IsTrans Expense dateDescLE :=
  ⟨fun _ _ _ hab hbc => le_trans hbc hab⟩

/-- Operation `getExpenses` (lines 389-401): all expenses of the user, stably sorted
descending by date; `[]` when the instance is unavailable or on error. -/
def getExpenses (inst : Option DB) (userId : String) : List Expense :=
  match inst with
  | none => []
  | some db =>
      List.insertionSort dateDescLE
        (db.expenses.filter (fun e => e.user_id == userId))

/-- Operation `addExpense` (lines 404-421). `t` is the `Date.now()` reading used when
the caller supplies no id (modelled by `idOpt`). -/
def addExpense (inst : Option DB) (e : Expense) (idOpt : Option String)
    (t : Nat) : OpResult Expense × Option DB :=
  match inst with
  | none => (OpResult.failure "Database not initialized", none)
  | some db =>
      let newE := { e with id := idOpt.getD ("exp_" ++ toString t) }
      match storeAdd Expense.id db.expenses newE with
      | Except.error _ => (OpResult.failure "Failed to add expense", some db)
      | Except.ok es => (OpResult.success newE, some { db with expenses := es })

/-- Operation `updateExpense` (lines 424-441): ownership check against the stored
record, then `put`. -/
def updateExpense (inst : Option DB) (e : Expense) :
    OpResult Expense × Option DB :=
  match inst with
  | none => (OpResult.failure "Database not initialized", none)
  | some db =>
      match storeGet Expense.id db.expenses e.id with
      | none => (OpResult.failure "Expense not found", some db)
      | some existing =>
          if existing.user_id == e.user_id then
            (OpResult.success e,
             some { db with expenses := storePut Expense.id db.expenses e })
          else (OpResult.failure "Expense not found", some db)

/-- Operation `deleteExpense` (lines 444-461): ownership check, then driver delete. -/
def deleteExpense (inst : Option DB) (id userId : String) :
    OpResult Unit × Option DB :=
  match inst with
  | none => (OpResult.failure "Database not initialized", none)
  | some db =>
      match storeGet Expense.id db.expenses id with
      | none => (OpResult.failure "Expense not found", some db)
      | some e =>
          if e.user_id == userId then
            (OpResult.success (),
             some { db with expenses := storeErase Expense.id db.expenses id })
          else (OpResult.failure "Expense not found", some db)

/-- Operation `getBudgets` (lines 467-477): all budgets of the user, unsorted. -/
def getBudgets (inst : Option DB) (userId : String) : List Budget :=
  match inst with
  | none => []
  | some db => db.budgets.filter (fun b => b.user_id == userId)

/-- Operation `updateBudget` (lines 500-517): mirrors `updateExpense`. -/
def updateBudget (inst : Option DB) (b : Budget) :
    OpResult Budget × Option DB :=
  match inst with
  | none => (OpResult.failure "Database not initialized", none)
  | some db =>
      match storeGet Budget.id db.budgets b.id with
      | none => (OpResult.failure "Budget not found", some db)
      | some existing =>
          if existing.user_id == b.user_id then
            (OpResult.success b,
             some { db with budgets := storePut Budget.id db.budgets b })
          else (OpResult.failure "Budget not found", some db)

/-- Operation `deleteBudget` (lines 520-537): mirrors `deleteExpense`. -/
def deleteBudget (inst : Option DB) (id userId : String) :
    OpResult Unit × Option DB :=
  match inst with
  | none => (OpResult.failure "Database not initialized", none)
  | some db =>
      match storeGet Budget.id db.budgets id with
      | none => (OpResult.failure "Budget not found", some db)
      | some b =>
          if b.user_id == userId then
            (OpResult.success (),
             some { db with budgets := storeErase Budget.id db.budgets id })
          else (OpResult.failure "Budget not found", some db)

/-! ## Analytics (lines 541-635) -/

/-- One bucket of the `getExpensesByMonth` result. -/
structure MonthBucket where
  month : String
  expense_total : ℚ
  income_total : ℚ
deriving DecidableEq, Repr

/-- Update of lines 583-587: an `expense`-typed amount is added to `expense_total`,
any other type to `income_total`. -/
def bump (e : Expense) (b : MonthBucket) : MonthBucket :=
  if e.type == "expense" then
    { b with expense_total := b.expense_total + e.amount }
  else
    { b with income_total := b.income_total + e.amount }

/-- One step of the grouping loop of lines 576-588: the `months` record maps
each month key (first seven characters of the date) to its running bucket;
keys are unique and `Object.entries` yields them in first-insertion order,
so the record is a key-ordered association list updated in place. -/
def addToMonths (e : Expense) : List MonthBucket → List MonthBucket
  | [] => [bump e { month := e.date.take 7, expense_total := 0, income_total := 0 }]
  | b :: bs =>
      if b.month == e.date.take 7 then bump e b :: bs
      else b :: addToMonths e bs

/-- The ascending sort relation of line 593 (`a.month.localeCompare(b.month)`). -/
def monthLE (a b : MonthBucket) : Prop := a.month ≤ b.month

instance : DecidableRel monthLE := fun a b =>
  decidable_of_iff (a.month.toList ≤ b.month.toList)
    String.le_iff_toList_le.symm

instance : IsTotal MonthBucket monthLE := ⟨fun a b => le_total a.month b.month⟩

instance : IsTrans MonthBucket monthLE := ⟨fun _ _ _ h1 h2 => le_trans h1 h2⟩

/-- The pure aggregation of `getExpensesByMonth` (lines 569-598) over an
already-fetched expense list: group by `date.substring(0, 7)`, then sort
buckets ascending by month key. -/
def totalsByMonth (l : List Expense) : List MonthBucket :=
  List.insertionSort monthLE (l.foldl (fun acc e => addToMonths e acc) [])

/-- Operation `getExpensesByMonth` itself: the aggregation over `getExpenses`. -/
def getExpensesByMonth (inst : Option DB) (userId : String) :
    List MonthBucket :=
  totalsByMonth (getExpenses inst userId)

/-- One row of the `getBudgetVsActual` result. -/
structure BudgetRow where
  category : String
  budget_amount : ℚ
  actual_amount : ℚ
deriving DecidableEq, Repr

/-- One step of the category-sum loop of lines 617-622 (also the loop shape
of lines 551-556): `actualByCategory` maps each category to its running sum. -/
def addToCats (c : String) (a : ℚ) : List (String × ℚ) → List (String × ℚ)
  | [] => [(c, a)]
  | p :: ps => if p.1 == c then (p.1, p.2 + a) :: ps else p :: addToCats c a ps

/-- The pure part of `getBudgetVsActual` (lines 601-634) given the
`currentMonth` string (line 607 computes it as the first seven characters of
the ISO rendering of the call-time clock reading). -/
def budgetVsActual (currentMonth : String) (budgets : List Budget)
    (expenses : List Expense) : List BudgetRow :=
  let cur := expenses.filter
    (fun e => e.date.startsWith currentMonth && e.type == "expense")
  let actual := cur.foldl (fun acc e => addToCats e.category e.amount acc) []
  budgets.map (fun b =>
    { category := b.category, budget_amount := b.amount,
      actual_amount :=
        ((actual.find? (fun p => p.1 == b.category)).map Prod.snd).getD 0 })

/-- Operation `getBudgetVsActual` itself, with the call-time clock reading passed as
its ISO-8601 rendering `nowIso`. -/
def getBudgetVsActual (inst : Option DB) (userId : String)
    (nowIso : String) : List BudgetRow :=
  budgetVsActual (nowIso.take 7) (getBudgets inst userId)
    (getExpenses inst userId)

/-! ## Seeding (lines 46-60 and 182-278) -/

/-- The demo user of `insertSampleData` (lines 185-191). -/
def demoUser (nowIso : String) : User :=
  { id := "user1", name := "Demo User", email := "demo@example.com",
    password := "password", created_at := nowIso }

/-- Demo expense exp1 (lines 197-205). -/
def seedExp1 : Expense :=
  { id := "exp1", user_id := "user1", description := "Groceries",
    amount := 85.75, date := "2023-04-15", category := "Food",
    type := "expense" }

/-- Demo expense exp2 (lines 206-214). -/
def seedExp2 : Expense :=
  { id := "exp2", user_id := "user1", description := "Salary",
    amount := 3000, date := "2023-04-01", category := "Salary",
    type := "income" }

/-- Demo expense exp3 (lines 215-223). -/
def seedExp3 : Expense :=
  { id := "exp3", user_id := "user1", description := "Rent",
    amount := 1200, date := "2023-04-05", category := "Housing",
    type := "expense" }

/-- Demo expense exp4 (lines 224-232). -/
def seedExp4 : Expense :=
  { id := "exp4", user_id := "user1", description := "Freelance Work",
    amount := 500, date := "2023-04-20", category := "Freelance",
    type := "income" }

/-- Demo expense exp5 (lines 233-241). -/
def seedExp5 : Expense :=
  { id := "exp5", user_id := "user1", description := "Dinner",
    amount := 45.5, date := "2023-04-18", category := "Food",
    type := "expense" }

/-- The five demo expenses (lines 196-242). -/
def sampleExpenses : List Expense :=
  [seedExp1, seedExp2, seedExp3, seedExp4, seedExp5]

/-- The three demo budgets (lines 249-268). -/
def sampleBudgets : List Budget :=
  [ { id := "budget1", user_id := "user1", category := "Food", amount := 400 },
    { id := "budget2", user_id := "user1", category := "Housing", amount := 1500 },
    { id := "budget3", user_id := "user1", category := "Transportation", amount := 200 } ]

/-- Sequential awaited `add`s of a seed loop: an `add` rejection aborts the
loop (the surrounding `catch` only logs), keeping the records already added. -/
def seqAddAll {α : Type} (key : α → String) (store : List α) :
    List α → List α × Bool
  | [] => (store, true)
  | a :: rest =>
      match storeAdd key store a with
      | Except.ok s => seqAddAll key s rest
      | Except.error _ => (store, false)

/-- Seeder `insertSampleData` (lines 182-278): demo user first, then the expenses,
then the budgets; any failure stops the remaining inserts and is swallowed. -/
def insertSampleData (nowIso : String) (db : DB) : DB :=
  match storeAdd User.id db.users (demoUser nowIso) with
  | Except.error _ => db
  | Except.ok users =>
      let pe := seqAddAll Expense.id db.expenses sampleExpenses
      if pe.2 then
        let pb := seqAddAll Budget.id db.budgets sampleBudgets
        { users := users, expenses := pe.1, budgets := pb.1 }
      else
        { users := users, expenses := pe.1, budgets := db.budgets }

/-- The seeding decision of the open handler (lines 46-60): seed exactly when
the user count is zero. -/
def initSeed (nowIso : String) (db : DB) : DB :=
  if db.users.length == 0 then insertSampleData nowIso db else db

/-! ## Specification-side aggregates and lookups (from the claims' wording) -/

/-- Spec-side: sum of the `expense`-typed amounts of the month bucket `m`. -/
def monthExpSum (l : List Expense) (m : String) : ℚ :=
  ((l.filter (fun e => e.date.take 7 == m && e.type == "expense")).map
    Expense.amount).sum

/-- Spec-side: sum of the non-`expense`-typed amounts of month bucket `m`
(the code's `else` branch; for well-typed data, the `income` amounts). -/
def monthIncSum (l : List Expense) (m : String) : ℚ :=
  ((l.filter (fun e => e.date.take 7 == m && !(e.type == "expense"))).map
    Expense.amount).sum

/-- Spec-side: sum of the `expense`-typed amounts in category `c` whose date
lies in month `m`. -/
def catMonthSum (expenses : List Expense) (m c : String) : ℚ :=
  ((expenses.filter (fun e =>
      e.type == "expense" && e.category == c && e.date.startsWith m)).map
    Expense.amount).sum

/-- Spec-side: sum of the amounts in category `c` of an already-filtered
expense list. -/
def catSum (l : List Expense) (c : String) : ℚ :=
  ((l.filter (fun e => e.category == c)).map Expense.amount).sum

/-- Lookup of a month bucket by its month key. -/
def bucketOf (l : List MonthBucket) (m : String) : Option MonthBucket :=
  l.find? (fun b => b.month == m)

/-! ## Concrete stores and records used by the witnesses -/

/-- The concrete store of the C1 witness: one expense and one budget, both
owned by alice. -/
def aliceDB : DB :=
  { users := [],
    expenses := [{ id := "exp1", user_id := "alice", description := "Tea",
                   amount := 3, date := "2023-05-01", category := "Food",
                   type := "expense" }],
    budgets := [{ id := "budget1", user_id := "alice", category := "Food",
                  amount := 100 }] }

/-- The concrete record of the C10 witness: a malformed `transfer` type. -/
def transferExp : Expense :=
  { id := "t1", user_id := "u", description := "Transfer", amount := 50,
    date := "2023-06-02", category := "Misc", type := "transfer" }

/-! ## Driver and list lemmas -/

/-- Erasing a key twice is the same one-collection state as erasing it once. -/
lemma storeErase_idem {α : Type} (key : α → String) (l : List α)
    (id : String) :
    storeErase key (storeErase key l id) id = storeErase key l id := by
  simp [storeErase, List.filter_filter]

/-- Every stored expense is in its owner's `getExpenses` result. -/
lemma mem_getExpenses_self (db : DB) {r : Expense} (hr : r ∈ db.expenses) :
    r ∈ getExpenses (some db) r.user_id := by
  unfold getExpenses
  exact (List.perm_insertionSort dateDescLE _).mem_iff.mpr
    (List.mem_filter.mpr ⟨hr, by simp⟩)

/-- Effect of one stable descending insertion on the subsequence of records
carrying one fixed date: the inserted record goes in front of that
subsequence exactly when it carries that date. -/
lemma filter_date_orderedInsert (e : Expense) (d : String)
    (l : List Expense) :
    (List.orderedInsert dateDescLE e l).filter (fun x => x.date == d) =
      if e.date == d then e :: l.filter (fun x => x.date == d)
      else l.filter (fun x => x.date == d) := by
  induction l with
  | nil =>
      by_cases hd : e.date = d <;>
        simp [List.orderedInsert, List.filter_cons, hd]
  | cons b l ih =>
      simp only [List.orderedInsert]
      by_cases hle : dateDescLE e b
      · rw [if_pos hle, List.filter_cons]
      · rw [if_neg hle, List.filter_cons, List.filter_cons, ih]
        have hlt : e.date < b.date := not_le.mp hle
        by_cases hd : e.date = d
        · have hb : (b.date == d) = false :=
            beq_eq_false_iff_ne.mpr (fun hbd => absurd (hd ▸ hbd) hlt.ne')
          simp [hd, hb]
        · simp [hd]

/-- The sort of `getExpenses` never reorders records of equal date. -/
lemma filter_date_insertionSort (d : String) (l : List Expense) :
    (List.insertionSort dateDescLE l).filter (fun x => x.date == d) =
      l.filter (fun x => x.date == d) := by
  induction l with
  | nil => rfl
  | cons e l ih =>
      simp only [List.insertionSort]
      rw [filter_date_orderedInsert, ih, List.filter_cons]

/-! ## Category-sum loop lemmas -/

/-- Looking up the category just added to the running category sums. -/
lemma addToCats_find?_eq (c : String) (a : ℚ) (acc : List (String × ℚ)) :
    (addToCats c a acc).find? (fun p => p.1 == c) =
      some (match acc.find? (fun p => p.1 == c) with
            | some p => (p.1, p.2 + a)
            | none => (c, a)) := by
  induction acc with
  | nil => simp [addToCats]
  | cons p ps ih =>
      by_cases h : p.1 = c
      · simp [addToCats, h]
      · have hb : (p.1 == c) = false := beq_eq_false_iff_ne.mpr h
        simp [addToCats, hb, ih]

/-- Adding to one category leaves the lookup of any other unchanged. -/
lemma addToCats_find?_ne (c c' : String) (a : ℚ) (acc : List (String × ℚ))
    (h : ¬ c' = c) :
    (addToCats c' a acc).find? (fun p => p.1 == c) =
      acc.find? (fun p => p.1 == c) := by
  induction acc with
  | nil => simp [addToCats, beq_eq_false_iff_ne.mpr h]
  | cons p ps ih =>
      by_cases hp : p.1 = c'
      · have hpc : (p.1 == c) = false :=
          beq_eq_false_iff_ne.mpr (fun hcc => h (hp ▸ hcc))
        have hcc : (c' == c) = false := beq_eq_false_iff_ne.mpr h
        simp [addToCats, hp, hpc, hcc]
      · have hb : (p.1 == c') = false := beq_eq_false_iff_ne.mpr hp
        cases hx : (p.1 == c) <;> simp [addToCats, hb, hx, ih]

/-- Characterization of the category-sum loop: after folding a list of
expenses into the running sums, the entry of category `c` carries the sum of
the matching amounts (on top of whatever the accumulator already held). -/
lemma foldl_addToCats_find? (c : String) (l : List Expense) :
    ∀ acc : List (String × ℚ),
    ((l.foldl (fun acc e => addToCats e.category e.amount acc) acc).find?
        (fun p => p.1 == c)) =
      match acc.find? (fun p => p.1 == c) with
      | some p => some (p.1, p.2 + catSum l c)
      | none =>
          if l.any (fun e => e.category == c) then some (c, catSum l c)
          else none := by
  induction l with
  | nil =>
      intro acc
      cases hf : acc.find? (fun p => p.1 == c) with
      | none => simp [hf, catSum]
      | some p => simp [hf, catSum]
  | cons e l ih =>
      intro acc
      rw [List.foldl_cons, ih]
      by_cases hc : e.category = c
      · subst hc
        rw [addToCats_find?_eq]
        have hsum : catSum (e :: l) e.category =
            e.amount + catSum l e.category := by
          simp [catSum, List.filter_cons]
        cases hf : acc.find? (fun p => p.1 == e.category) with
        | some p => simp [hf, hsum, add_assoc]
        | none => simp [hf, hsum]
      · rw [addToCats_find?_ne _ _ _ _ hc]
        have hb : (e.category == c) = false := beq_eq_false_iff_ne.mpr hc
        have hsum : catSum (e :: l) c = catSum l c := by
          simp [catSum, List.filter_cons, hb]
        have hany : (e :: l).any (fun x => x.category == c) =
            l.any (fun x => x.category == c) := by
          simp [List.any_cons, hb]
        rw [hsum, hany]

/-- Reordering the three filter conditions of `catMonthSum`. -/
lemma filter_cond_comm (m c : String) (x : Expense) :
    (x.category == c && (x.date.startsWith m && (x.type == "expense"))) =
      (x.type == "expense" && x.category == c && x.date.startsWith m) := by
  cases hx : x.category == c <;> cases hy : x.date.startsWith m <;>
    cases hz : x.type == "expense" <;> simp [hx, hy, hz]

/-! ## Month-bucket loop lemmas -/

/-- Bumping a bucket never changes its month key. -/
lemma bump_month (e : Expense) (b : MonthBucket) :
    (bump e b).month = b.month := by
  unfold bump
  split <;> rfl

/-- Looking up the month just folded into the running buckets. -/
lemma addToMonths_bucketOf_eq (e : Expense) (acc : List MonthBucket) :
    bucketOf (addToMonths e acc) (e.date.take 7) =
      some (bump e ((bucketOf acc (e.date.take 7)).getD
        { month := e.date.take 7, expense_total := 0, income_total := 0 })) := by
  induction acc with
  | nil => simp [addToMonths, bucketOf, List.find?_cons, bump_month]
  | cons b bs ih =>
      by_cases hb : b.month = e.date.take 7
      · have hbt : (b.month == e.date.take 7) = true := by simp [hb]
        simp [addToMonths, bucketOf, hbt, List.find?_cons, bump_month, hb]
      · have hbf : (b.month == e.date.take 7) = false :=
          beq_eq_false_iff_ne.mpr hb
        simpa [addToMonths, bucketOf, hbf, List.find?_cons, bump_month]
          using ih

/-- Folding an expense of one month leaves every other month's bucket
unchanged. -/
lemma addToMonths_bucketOf_ne (e : Expense) (m : String)
    (h : ¬ e.date.take 7 = m) (acc : List MonthBucket) :
    bucketOf (addToMonths e acc) m = bucketOf acc m := by
  induction acc with
  | nil =>
      simp [addToMonths, bucketOf, List.find?_cons, bump_month,
        beq_eq_false_iff_ne.mpr h]
  | cons b bs ih =>
      by_cases hb : b.month = e.date.take 7
      · have h1 : (b.month == m) = false :=
          beq_eq_false_iff_ne.mpr (fun hc => h (hb ▸ hc))
        have h2 : (b.month == e.date.take 7) = true := by simp [hb]
        simp [addToMonths, bucketOf, h2, bump_month, h1, List.find?_cons]
      · have h2 : (b.month == e.date.take 7) = false :=
          beq_eq_false_iff_ne.mpr hb
        cases h3 : (b.month == m) with
        | true => simp [addToMonths, bucketOf, h2, h3, List.find?_cons]
        | false =>
            simpa [addToMonths, bucketOf, h2, h3, List.find?_cons] using ih

/-- Characterization of the month-grouping loop of `getExpensesByMonth`:
after folding the expense list, the bucket of month `m` carries the
`expense`-typed and the remaining amounts of that month, on top of whatever
the accumulator already held. -/
lemma foldl_addToMonths_bucketOf (m : String) (l : List Expense) :
    ∀ acc : List MonthBucket,
    bucketOf (l.foldl (fun acc e => addToMonths e acc) acc) m =
      match bucketOf acc m with
      | some b => some { month := b.month,
                         expense_total := b.expense_total + monthExpSum l m,
                         income_total := b.income_total + monthIncSum l m }
      | none =>
          if l.any (fun e => e.date.take 7 == m) then
            some { month := m, expense_total := monthExpSum l m,
                   income_total := monthIncSum l m }
          else none := by
  induction l with
  | nil =>
      intro acc
      cases hf : bucketOf acc m with
      | none => simp [hf, monthExpSum, monthIncSum]
      | some b => simp [hf, monthExpSum, monthIncSum]
  | cons e l ih =>
      intro acc
      rw [List.foldl_cons, ih]
      by_cases hm : e.date.take 7 = m
      · subst hm
        rw [addToMonths_bucketOf_eq]
        cases hf : bucketOf acc (e.date.take 7) with
        | some b =>
            by_cases ht : e.type = "expense"
            · have htt : (e.type == "expense") = true := by simp [ht]
              simp [hf, bump, htt, monthExpSum, monthIncSum,
                List.filter_cons, add_assoc]
            · have htf : (e.type == "expense") = false :=
                beq_eq_false_iff_ne.mpr ht
              simp [hf, bump, htf, monthExpSum, monthIncSum,
                List.filter_cons, add_assoc]
        | none =>
            by_cases ht : e.type = "expense"
            · have htt : (e.type == "expense") = true := by simp [ht]
              simp [hf, bump, htt, monthExpSum, monthIncSum,
                List.filter_cons]
            · have htf : (e.type == "expense") = false :=
                beq_eq_false_iff_ne.mpr ht
              simp [hf, bump, htf, monthExpSum, monthIncSum,
                List.filter_cons]
      · rw [addToMonths_bucketOf_ne e m hm]
        have hb : (e.date.take 7 == m) = false := beq_eq_false_iff_ne.mpr hm
        have h1 : monthExpSum (e :: l) m = monthExpSum l m := by
          simp [monthExpSum, List.filter_cons, hb]
        have h2 : monthIncSum (e :: l) m = monthIncSum l m := by
          simp [monthIncSum, List.filter_cons, hb]
        have h3 : (e :: l).any (fun x => x.date.take 7 == m) =
            l.any (fun x => x.date.take 7 == m) := by
          simp [List.any_cons, hb]
        rw [h1, h2, h3]

/-- Month keys produced by one folding step. -/
lemma months_addToMonths (e : Expense) (acc : List MonthBucket) :
    (addToMonths e acc).map MonthBucket.month =
      if acc.any (fun b => b.month == e.date.take 7) then
        acc.map MonthBucket.month
      else acc.map MonthBucket.month ++ [e.date.take 7] := by
  induction acc with
  | nil => simp [addToMonths, bump_month]
  | cons b bs ih =>
      by_cases hb : b.month = e.date.take 7
      · have hbt : (b.month == e.date.take 7) = true := by simp [hb]
        simp [addToMonths, hbt, bump_month, List.any_cons]
      · have hbf : (b.month == e.date.take 7) = false :=
          beq_eq_false_iff_ne.mpr hb
        cases hany : bs.any (fun x => x.month == e.date.take 7) <;>
          simp [addToMonths, hbf, hany, List.any_cons, ih]

/-- The month-grouping loop keeps the bucket keys duplicate-free. -/
lemma nodup_months_foldl (l : List Expense) :
    ∀ acc : List MonthBucket, (acc.map MonthBucket.month).Nodup →
    ((l.foldl (fun acc e => addToMonths e acc) acc).map
      MonthBucket.month).Nodup := by
  induction l with
  | nil => intro acc h; simpa using h
  | cons e l ih =>
      intro acc h
      rw [List.foldl_cons]
      apply ih
      rw [months_addToMonths]
      cases hany : acc.any (fun b => b.month == e.date.take 7) with
      | true => simpa using h
      | false =>
          have hnot : e.date.take 7 ∉ acc.map MonthBucket.month := by
            intro hmem
            obtain ⟨b, hbmem, hbm⟩ := List.mem_map.mp hmem
            have := List.any_eq_false.mp hany b hbmem
            simp [hbm] at this
          simp [List.nodup_append, h, hnot]

/-- With duplicate-free keys, lookup by key finds any given member. -/
lemma bucketOf_eq_some_of_mem {l : List MonthBucket} {b : MonthBucket}
    {m : String} (hn : (l.map MonthBucket.month).Nodup) (hb : b ∈ l)
    (hm : b.month = m) : bucketOf l m = some b := by
  induction l with
  | nil => cases hb
  | cons x xs ih =>
      rw [List.map_cons, List.nodup_cons] at hn
      rcases List.mem_cons.mp hb with rfl | hbs
      · simp [bucketOf, List.find?_cons, hm]
      · have hx : (x.month == m) = false := by
          apply beq_eq_false_iff_ne.mpr
          intro hxm
          exact hn.1 (List.mem_map.mpr ⟨b, hbs, hm.trans hxm.symm⟩)
        have := ih hn.2 hbs
        simpa [bucketOf, List.find?_cons, hx] using this

/-- With duplicate-free keys, lookup by key is invariant under permutation
(in particular under the final sort of `getExpensesByMonth`). -/
lemma bucketOf_perm {l l' : List MonthBucket} (hp : l.Perm l')
    (hn : (l.map MonthBucket.month).Nodup) (m : String) :
    bucketOf l m = bucketOf l' m := by
  cases h : bucketOf l m with
  | some b =>
      have hb : b ∈ l := List.mem_of_find?_eq_some h
      have hm : b.month = m := by simpa using List.find?_some h
      have hn' : (l'.map MonthBucket.month).Nodup :=
        ((hp.map MonthBucket.month).nodup_iff).mp hn
      exact (bucketOf_eq_some_of_mem hn' (hp.mem_iff.mp hb) hm).symm
  | none =>
      symm
      rw [bucketOf, List.find?_eq_none]
      intro x hx
      exact List.find?_eq_none.mp h x (hp.mem_iff.mpr hx)

/-! ## C1: ownership mismatch yields a not-found outcome -/

/-- C1. When every stored expense (resp. budget) with the targeted id has an
owner different from the caller-supplied one — in particular when no record
with that id exists — `updateExpense`, `deleteExpense`, `updateBudget` and
`deleteBudget` return the not-found outcome and the store is unchanged; and
every stored record is still returned by its true owner's list operation. -/
theorem ownership_mismatch_not_found (db : DB) (e : Expense) (bg : Budget)
    (id userId : String)
    (h1 : ∀ r ∈ db.expenses, r.id = e.id → r.user_id ≠ e.user_id)
    (h2 : ∀ r ∈ db.expenses, r.id = id → r.user_id ≠ userId)
    (h3 : ∀ r ∈ db.budgets, r.id = bg.id → r.user_id ≠ bg.user_id)
    (h4 : ∀ r ∈ db.budgets, r.id = id → r.user_id ≠ userId) :
    updateExpense (some db) e =
      (OpResult.failure "Expense not found", some db) ∧
    deleteExpense (some db) id userId =
      (OpResult.failure "Expense not found", some db) ∧
    updateBudget (some db) bg =
      (OpResult.failure "Budget not found", some db) ∧
    deleteBudget (some db) id userId =
      (OpResult.failure "Budget not found", some db) ∧
    (∀ r ∈ db.expenses, r ∈ getExpenses (some db) r.user_id) ∧
    (∀ r ∈ db.budgets, r ∈ getBudgets (some db) r.user_id) := by
  refine ⟨?_, ?_, ?_, ?_, fun r hr => mem_getExpenses_self db hr,
    fun r hr => List.mem_filter.mpr ⟨hr, by simp⟩⟩
  · simp only [updateExpense]
    cases hf : storeGet Expense.id db.expenses e.id with
    | none => rfl
    | some ex =>
        have hid : ex.id = e.id := by
          have := List.find?_some hf
          simpa using this
        have hmem : ex ∈ db.expenses := List.mem_of_find?_eq_some hf
        have : (ex.user_id == e.user_id) = false := by
          simp [h1 ex hmem hid]
        simp [this]
  · simp only [deleteExpense]
    cases hf : storeGet Expense.id db.expenses id with
    | none => rfl
    | some ex =>
        have hid : ex.id = id := by
          have := List.find?_some hf
          simpa using this
        have hmem : ex ∈ db.expenses := List.mem_of_find?_eq_some hf
        have : (ex.user_id == userId) = false := by
          simp [h2 ex hmem hid]
        simp [this]
  · simp only [updateBudget]
    cases hf : storeGet Budget.id db.budgets bg.id with
    | none => rfl
    | some b =>
        have hid : b.id = bg.id := by
          have := List.find?_some hf
          simpa using this
        have hmem : b ∈ db.budgets := List.mem_of_find?_eq_some hf
        have : (b.user_id == bg.user_id) = false := by
          simp [h3 b hmem hid]
        simp [this]
  · simp only [deleteBudget]
    cases hf : storeGet Budget.id db.budgets id with
    | none => rfl
    | some b =>
        have hid : b.id = id := by
          have := List.find?_some hf
          simpa using this
        have hmem : b ∈ db.budgets := List.mem_of_find?_eq_some hf
        have : (b.user_id == userId) = false := by
          simp [h4 b hmem hid]
        simp [this]

/-- C1, witness: bob cannot update or delete alice's records; every
operation reports not-found and the store stays intact. -/
theorem ownership_mismatch_not_found_witness :
    updateExpense (some aliceDB)
        { id := "exp1", user_id := "bob", description := "Tea",
          amount := 3, date := "2023-05-01", category := "Food",
          type := "expense" } =
      (OpResult.failure "Expense not found", some aliceDB) ∧
    deleteExpense (some aliceDB) "exp1" "bob" =
      (OpResult.failure "Expense not found", some aliceDB) ∧
    updateBudget (some aliceDB)
        { id := "budget1", user_id := "bob", category := "Food",
          amount := 100 } =
      (OpResult.failure "Budget not found", some aliceDB) ∧
    deleteBudget (some aliceDB) "budget1" "bob" =
      (OpResult.failure "Budget not found", some aliceDB) := by
  have h := ownership_mismatch_not_found aliceDB
    { id := "exp1", user_id := "bob", description := "Tea", amount := 3,
      date := "2023-05-01", category := "Food", type := "expense" }
    { id := "budget1", user_id := "bob", category := "Food", amount := 100 }
    "exp1" "bob"
    (by intro r hr _; simp [aliceDB] at hr; subst hr; simp)
    (by intro r hr _; simp [aliceDB] at hr; subst hr; simp)
    (by intro r hr _; simp [aliceDB] at hr; subst hr; simp)
    (by intro r hr _; simp [aliceDB] at hr; subst hr; simp)
  refine ⟨h.1, h.2.1, h.2.2.1, ?_⟩
  have h5 := ownership_mismatch_not_found aliceDB
    { id := "exp1", user_id := "bob", description := "Tea", amount := 3,
      date := "2023-05-01", category := "Food", type := "expense" }
    { id := "budget1", user_id := "bob", category := "Food", amount := 100 }
    "budget1" "bob"
    (by intro r hr _; simp [aliceDB] at hr; subst hr; simp)
    (by intro r hr _; simp [aliceDB] at hr; subst hr; simp)
    (by intro r hr _; simp [aliceDB] at hr; subst hr; simp)
    (by intro r hr _; simp [aliceDB] at hr; subst hr; simp)
  exact h5.2.2.2.1

/-! ## C2: budget versus actual spending -/

/-- C2. `budgetVsActual` returns one row per budget, in order, pairing the
budget amount with the sum of the amounts of `expense`-typed expenses whose
category equals the budget category exactly and whose date lies in the given
current month; a category with no matching expenses gets `actual_amount`
zero (the sum over the empty filter), never an error. -/
theorem budgetVsActual_rows (m : String) (budgets : List Budget)
    (expenses : List Expense) :
    budgetVsActual m budgets expenses =
      budgets.map (fun b =>
        { category := b.category, budget_amount := b.amount,
          actual_amount := catMonthSum expenses m b.category }) := by
  simp only [budgetVsActual]
  apply List.map_congr_left
  intro b _
  have hfind := foldl_addToCats_find? b.category
    (expenses.filter (fun e => e.date.startsWith m && e.type == "expense")) []
  simp only [List.find?_nil] at hfind
  rw [hfind]
  have hcats : (expenses.filter
        (fun e => e.date.startsWith m && e.type == "expense")).filter
        (fun e => e.category == b.category) =
      expenses.filter (fun e =>
        e.type == "expense" && e.category == b.category &&
          e.date.startsWith m) := by
    rw [List.filter_filter]
    exact List.filter_congr (fun x _ => filter_cond_comm m b.category x)
  cases hany : (expenses.filter
      (fun e => e.date.startsWith m && e.type == "expense")).any
      (fun e => e.category == b.category) with
  | true =>
      simp only [hany, if_true]
      have : catSum (expenses.filter
          (fun e => e.date.startsWith m && e.type == "expense")) b.category =
          catMonthSum expenses m b.category := by
        simp only [catSum, catMonthSum, hcats]
      simp [this]
  | false =>
      simp only [hany, Bool.false_eq_true, if_false]
      have hnil : expenses.filter (fun e =>
          e.type == "expense" && e.category == b.category &&
            e.date.startsWith m) = [] := by
        rw [← hcats]
        rw [List.filter_eq_nil_iff]
        intro x hx
        exact (List.any_eq_false.mp hany) x hx
      simp [catMonthSum, hnil]

/-! ## C3: monthly totals -/

/-- C3. `totalsByMonth` groups records by the first seven characters of the
date: the bucket of month `m` exists exactly when some record carries that
month and then holds the sum of its `expense`-typed amounts as
`expense_total` and of its remaining (income-typed) amounts as
`income_total`; bucket keys are unique; buckets are sorted ascending
lexicographically by month key; and on the two records of the specified
example it returns the single stated bucket. -/
theorem totalsByMonth_buckets (l : List Expense) (m : String) :
    (bucketOf (totalsByMonth l) m =
      if l.any (fun e => e.date.take 7 == m) then
        some { month := m, expense_total := monthExpSum l m,
               income_total := monthIncSum l m }
      else none) ∧
    List.Pairwise monthLE (totalsByMonth l) ∧
    ((totalsByMonth l).map MonthBucket.month).Nodup ∧
    totalsByMonth
      [ { id := "e1", user_id := "u", description := "Groceries",
          amount := 85.75, date := "2023-04-15", category := "Food",
          type := "expense" },
        { id := "e2", user_id := "u", description := "Salary",
          amount := 3000, date := "2023-04-01", category := "Salary",
          type := "income" } ] =
      [ { month := "2023-04", expense_total := 85.75,
          income_total := 3000 } ] := by
  have hnodup := nodup_months_foldl l [] (by simp)
  have hperm : (totalsByMonth l).Perm
      (l.foldl (fun acc e => addToMonths e acc) []) :=
    List.perm_insertionSort _ _
  have hnodupSorted : ((totalsByMonth l).map MonthBucket.month).Nodup :=
    ((hperm.map MonthBucket.month).nodup_iff).mpr hnodup
  refine ⟨?_, List.sorted_insertionSort monthLE _, hnodupSorted, ?_⟩
  · rw [bucketOf_perm hperm hnodupSorted m, foldl_addToMonths_bucketOf]
    simp [bucketOf]
  · have h1 : ("2023-04-15" : String).take 7 = "2023-04" := by decide
    have h2 : ("2023-04-01" : String).take 7 = "2023-04" := by decide
    simp [totalsByMonth, addToMonths, bump, h1, h2]

/-! ## C4: listExpenses is an ownership filter, stably sorted by date -/

/-- C4. `getExpenses` returns exactly the stored expenses whose owner is the
given user (a permutation of that filter), sorted descending by date, and
records of equal date keep the relative order they have in the stored
collection. -/
theorem listExpenses_exact_sorted_stable (db : DB) (u d : String) :
    (getExpenses (some db) u).Perm
      (db.expenses.filter (fun e => e.user_id == u)) ∧
    List.Pairwise dateDescLE (getExpenses (some db) u) ∧
    (getExpenses (some db) u).filter (fun e => e.date == d) =
      (db.expenses.filter (fun e => e.user_id == u)).filter
        (fun e => e.date == d) := by
  refine ⟨List.perm_insertionSort _ _, ?_, filter_date_insertionSort d _⟩
  exact List.sorted_insertionSort dateDescLE _

/-! ## C5: createUser then findUserByCredentials round-trip -/

/-- C5. If no stored user has the given email and the generated id is fresh,
`createUser` succeeds and `getUserByCredentials` on the resulting store with
the same email and password returns a user whose email and name are the ones
given to `createUser`. -/
theorem createUser_then_find (db : DB) (name email password nowIso : String)
    (t : Nat) (hEmail : ∀ u ∈ db.users, u.email ≠ email)
    (hId : ∀ u ∈ db.users, u.id ≠ "user_" ++ toString t) :
    ∃ (u : User) (inst : Option DB),
      createUser (some db) name email password t nowIso =
        (OpResult.success u, inst) ∧
      getUserByCredentials inst email password = some u ∧
      u.email = email ∧ u.name = name := by
  have hAnyEmail : db.users.any (fun u => u.email == email) = false :=
    List.any_eq_false.mpr (fun u hu => by simp [hEmail u hu])
  set u : User :=
    { id := "user_" ++ toString t, name := name, email := email,
      password := password, created_at := nowIso } with hu
  have hAnyId : db.users.any (fun x => x.id == u.id) = false :=
    List.any_eq_false.mpr (fun x hx => by simp [hu, hId x hx])
  refine ⟨u, some { db with users := db.users ++ [u] }, ?_, ?_, rfl, rfl⟩
  · simp only [createUser, hAnyEmail, Bool.false_eq_true, if_false,
      storeAdd, User.id, hAnyId]
  · simp only [getUserByCredentials, List.find?_append]
    have hNone : db.users.find?
        (fun x => x.email == email && x.password == password) = none :=
      List.find?_eq_none.mpr (fun x hx => by simp [hEmail x hx])
    simp [hNone, hu]

/-- C5, witness: the round-trip at a concrete fresh registration. -/
theorem createUser_then_find_witness :
    ∃ (u : User) (inst : Option DB),
      createUser (some emptyDB) "Ada" "ada@example.com" "pw" 1 "T" =
        (OpResult.success u, inst) ∧
      getUserByCredentials inst "ada@example.com" "pw" = some u ∧
      u.email = "ada@example.com" ∧ u.name = "Ada" :=
  createUser_then_find emptyDB "Ada" "ada@example.com" "pw" "T" 1
    (by simp [emptyDB]) (by simp [emptyDB])

/-! ## C6: duplicate email on registration -/

/-- C6. If some stored user already has the given email (case-sensitive
exact comparison), `createUser` fails with the email-in-use outcome and the
store is unchanged. -/
theorem createUser_email_in_use (db : DB) (name email password nowIso : String)
    (t : Nat) (h : ∃ u ∈ db.users, u.email = email) :
    createUser (some db) name email password t nowIso =
      (OpResult.failure "Email already in use", some db) := by
  obtain ⟨u, hu, he⟩ := h
  simp only [createUser]
  rw [if_pos (List.any_eq_true.mpr ⟨u, hu, by simp [he]⟩)]

/-- C6, witness: registering a second account with the demo email fails and
leaves the store as it was. -/
theorem createUser_email_in_use_witness :
    createUser (some { users := [demoUser "T0"], expenses := [], budgets := [] })
        "Mallory" "demo@example.com" "pw" 7 "T1" =
      (OpResult.failure "Email already in use",
       some { users := [demoUser "T0"], expenses := [], budgets := [] }) :=
  createUser_email_in_use _ "Mallory" "demo@example.com" "pw" "T1" 7
    ⟨demoUser "T0", by simp, rfl⟩

/-! ## C7: seeding on first open -/

/-- C7. Opening an empty store seeds exactly the demo user, the five demo
expenses and the three demo budgets; the demo user's expense list then
returns exactly those five records (sorted descending by date); and any open
that sees a non-zero user count performs no seeding at all. -/
theorem seed_on_empty_store (now : String) (db : DB) :
    initSeed now emptyDB =
      { users := [demoUser now], expenses := sampleExpenses,
        budgets := sampleBudgets } ∧
    getExpenses (some (initSeed now emptyDB)) "user1" =
      [seedExp4, seedExp5, seedExp1, seedExp3, seedExp2] ∧
    (getExpenses (some (initSeed now emptyDB)) "user1").Perm sampleExpenses ∧
    (db.users.length ≠ 0 → initSeed now db = db) := by
  refine ⟨rfl, rfl, ?_, ?_⟩
  · have h : getExpenses (some (initSeed now emptyDB)) "user1" =
        List.insertionSort dateDescLE sampleExpenses := rfl
    rw [h]
    exact List.perm_insertionSort _ _
  · intro h
    simp [initSeed, h]

/-- C7, witness: an open that finds the already-seeded single user inserts
nothing. -/
theorem seed_on_empty_store_witness :
    initSeed "T" { users := [demoUser "T"], expenses := [], budgets := [] } =
      { users := [demoUser "T"], expenses := [], budgets := [] } :=
  (seed_on_empty_store "T" _).2.2.2 (by decide)

/-! ## C8: how storage-layer failures surface to callers -/

/-- C8, counterexample. The claim says list and lookup operations do not
report a storage error as an ordinary empty list or not-found value; but on
an unavailable store (`instance` null, the storage-unavailable state)
`getExpenses` returns `[]` and `getUserByCredentials` returns `none`, the
very same outcomes a successful call on an empty store produces. -/
theorem storage_error_masked_as_success :
    getExpenses none "user1" = [] ∧
    getExpenses (some emptyDB) "user1" = [] ∧
    getBudgets none "user1" = [] ∧
    getBudgets (some emptyDB) "user1" = [] ∧
    getUserByCredentials none "demo@example.com" "password" = none ∧
    getUserByCredentials (some emptyDB) "demo@example.com" "password" = none :=
  ⟨rfl, rfl, rfl, rfl, rfl, rfl⟩

/-- C8, amended. Mutation operations surface a storage-unavailable state as
an explicit failure value, which no successful outcome equals; list and
lookup operations instead report it as `[]` / not-found, indistinguishable
from a successful empty result. -/
theorem storage_failure_outcomes (e : Expense) (bg : Budget)
    (id userId name email password nowIso : String) (t : Nat) :
    updateExpense none e = (OpResult.failure "Database not initialized", none) ∧
    deleteExpense none id userId =
      (OpResult.failure "Database not initialized", none) ∧
    updateBudget none bg = (OpResult.failure "Database not initialized", none) ∧
    deleteBudget none id userId =
      (OpResult.failure "Database not initialized", none) ∧
    createUser none name email password t nowIso =
      (OpResult.failure "Database not initialized", none) ∧
    addExpense none e none t =
      (OpResult.failure "Database not initialized", none) ∧
    (∀ (α : Type) (x : α) (msg : String),
      (OpResult.success x : OpResult α) ≠ OpResult.failure msg) ∧
    getExpenses none userId = [] ∧
    getBudgets none userId = [] ∧
    getUserByCredentials none email password = none :=
  ⟨rfl, rfl, rfl, rfl, rfl, rfl,
   fun _ _ _ h => OpResult.noConfusion h, rfl, rfl, rfl⟩

/-! ## C9: driver delete is total and idempotent -/

/-- C9. For every store, collection and id, the driver delete succeeds (also
when no record with that id is present), and deleting the same id twice
leaves the store in the same state as deleting it once. -/
theorem dbDelete_idempotent (db : DB) (s : StoreName) (id : String) :
    dbDelete (some db) s id = Except.ok (applyDelete db s id) ∧
    dbDelete (some (applyDelete db s id)) s id =
      Except.ok (applyDelete db s id) := by
  refine ⟨rfl, ?_⟩
  simp only [dbDelete, Except.ok.injEq]
  cases s <;> simp [applyDelete, storeErase_idem]

/-! ## C10: non-expense types are counted as income -/

/-- C10. A record whose type is not exactly the string `expense` is not
rejected or ignored by the monthly aggregation: its amount is added to its
month bucket's `income_total` (and not to `expense_total`). -/
theorem non_expense_type_counts_as_income (e : Expense) (l : List Expense)
    (h : ¬ e.type = "expense") :
    bucketOf (totalsByMonth (e :: l)) (e.date.take 7) =
      some { month := e.date.take 7,
             expense_total := monthExpSum l (e.date.take 7),
             income_total := e.amount + monthIncSum l (e.date.take 7) } ∧
    totalsByMonth [e] =
      [{ month := e.date.take 7, expense_total := 0,
         income_total := e.amount }] := by
  have ht : (e.type == "expense") = false := beq_eq_false_iff_ne.mpr h
  constructor
  · have hnodup := nodup_months_foldl (e :: l) [] (by simp)
    have hperm : (totalsByMonth (e :: l)).Perm
        ((e :: l).foldl (fun acc e => addToMonths e acc) []) :=
      List.perm_insertionSort _ _
    have hnodupSorted :
        ((totalsByMonth (e :: l)).map MonthBucket.month).Nodup :=
      ((hperm.map MonthBucket.month).nodup_iff).mpr hnodup
    rw [bucketOf_perm hperm hnodupSorted, foldl_addToMonths_bucketOf]
    have h1 : monthExpSum (e :: l) (e.date.take 7) =
        monthExpSum l (e.date.take 7) := by
      simp [monthExpSum, List.filter_cons, ht]
    have h2 : monthIncSum (e :: l) (e.date.take 7) =
        e.amount + monthIncSum l (e.date.take 7) := by
      simp [monthIncSum, List.filter_cons, ht]
    simp [bucketOf, h1, h2]
  · simp [totalsByMonth, addToMonths, bump, ht]

/-- C10, witness: a `transfer`-typed record of June 2023 lands in
`income_total`. -/
theorem non_expense_type_counts_as_income_witness :
    totalsByMonth [transferExp] =
      [{ month := "2023-06", expense_total := 0, income_total := 50 }] :=
  (non_expense_type_counts_as_income transferExp [] (by decide)).2

end ETrack
